import Mathlib

/-!
Verification of the asynchronous job monitor of the Xe-Bot frontend.

The development shallowly embeds the two core pieces of the repository:

* the stage-reconciliation mapper `handleProgress` together with its step
  updater `updateStep` and the initial pipeline state, from the App
  component (src/unnamed/part_000, lines 100-105 and 135-182), and
* the polling engine `pollJobUntilComplete` from
  src/frontend/src/services/api.ts (lines 189-229), modelled as a tick
  function `pollStep` driven over a list of endpoint responses by
  `pollAux`, which records the observable events of a session (requests,
  progress callbacks, scheduled sleeps, and the terminal settlement).

JavaScript strings become `String`, optional fields become `Option`,
falsy-or defaults (`x || y`) become `jsOr`/`jsOrOpt`, and the promise
resolution becomes the `PollResult` value settled in the event log.
-/

namespace XeBot

/-- Lifecycle of a remote job: the `status` field of the `JobStatus`
interface in src/frontend/src/services/api.ts (line 159). -/
inductive Lifecycle where
  | queued
  | processing
  | completed
  | failed
deriving DecidableEq

/-- One status snapshot of the remote job: the `JobStatus` interface of
api.ts (lines 157-169).  Payload fields never inspected by the monitor
(`videos`, `paper`, `segments`, `segments_count`) are omitted; `result`
is kept as an opaque optional payload string. -/
structure JobStatus where
  job_id : String
  status : Lifecycle
  stage : Option String := none
  stage_detail : Option String := none
  progress : Option Nat := none
  result : Option String := none
  error : Option String := none
deriving DecidableEq

/-- Status of one pipeline step: the `status` field of the
`ProcessingStep` interface in src/unnamed/part_000 (line 89). -/
inductive StepStatus where
  | pending
  | active
  | completed
  | error
deriving DecidableEq

/-- One pipeline step record: the `ProcessingStep` interface in
src/unnamed/part_000 (lines 85-90). -/
structure Step where
  id : String
  title : String
  description : String
  status : StepStatus
deriving DecidableEq

/-- The initial pipeline state: the `processingSteps` state initializer in
src/unnamed/part_000 (lines 100-105). -/
def initialSteps : List Step :=
  [ { id := "fetch", title := "Fetching Paper", description := "Downloading...", status := .pending },
    { id := "extract", title := "Extracting", description := "Analyzing...", status := .pending },
    { id := "segment", title := "Segmenting", description := "Breaking down...", status := .pending },
    { id := "animate", title := "Animating", description := "Creating visuals...", status := .pending } ]

/-- JavaScript `a || b` on strings: the left operand unless it is the
empty string (falsy). -/
def jsOr (a b : String) : String := if a = "" then b else a

/-- JavaScript `x || b` where `x : string | undefined`: `undefined` and the
empty string both fall through to the default. -/
def jsOrOpt (a : Option String) (b : String) : String :=
  match a with
  | none => b
  | some s => jsOr s b

/-- JavaScript `String.prototype.toLowerCase` on the ASCII stage tokens
used by the backend. -/
def jsLower (s : String) : String := ⟨s.data.map Char.toLower⟩

/-- Substring test on character lists, used to embed JavaScript
`String.prototype.includes`. -/
def isSubList (sub : List Char) : List Char → Bool
  | [] => sub.isEmpty
  | c :: cs => sub.isPrefixOf (c :: cs) || isSubList sub cs

/-- JavaScript `s.includes(sub)`. -/
def strIncludes (s sub : String) : Bool := isSubList sub.data s.data

/-- `status.stage?.toLowerCase() || ''` (src/unnamed/part_000, line 148). -/
def stageOf (s : JobStatus) : String := jsLower (s.stage.getD "")

/-- `status.stage_detail || ''` (src/unnamed/part_000, line 149). -/
def detailOf (s : JobStatus) : String := s.stage_detail.getD ""

/-- `status.progress || 0` (src/unnamed/part_000, line 150). -/
def progressOf (s : JobStatus) : Nat := s.progress.getD 0

/-- The per-element transform of `updateStep` (src/unnamed/part_000,
lines 135-139): a step whose id matches gets the new status, and the new
description unless that is absent or empty. -/
def applyStep (stepId : String) (st : StepStatus) (descr : Option String) (s : Step) : Step :=
  if s.id = stepId then { s with status := st, description := jsOrOpt descr s.description } else s

/-- `updateStep` of src/unnamed/part_000 (lines 135-139): map the matching
step to the given status and description over the whole step list. -/
def updateStep (stepId : String) (st : StepStatus) (descr : Option String) (steps : List Step) : List Step :=
  steps.map (applyStep stepId st descr)

/-- The stage mapper `handleProgress` of src/unnamed/part_000
(lines 147-177): dispatch on the lowercased stage token of the snapshot
and advance the pipeline steps accordingly. -/
def handleProgress (status : JobStatus) (steps : List Step) : List Step :=
  if stageOf status = "queued" then
    updateStep "fetch" .active (some "Queued, waiting to start...") steps
  else if stageOf status = "fetching" ∨ strIncludes (stageOf status) "fetch" = true then
    updateStep "fetch" .active
      (some (jsOr (detailOf status) ("Downloading paper... " ++ toString (progressOf status) ++ "%"))) steps
  else if stageOf status = "extracting" ∨ strIncludes (stageOf status) "extract" = true then
    updateStep "extract" .active (some (jsOr (detailOf status) "Analyzing content..."))
      (updateStep "fetch" .completed (some "Paper downloaded") steps)
  else if stageOf status = "segmenting" ∨ strIncludes (stageOf status) "segment" = true then
    updateStep "segment" .active (some (jsOr (detailOf status) "Breaking into topics..."))
      (updateStep "extract" .completed (some "Introduction extracted")
        (updateStep "fetch" .completed none steps))
  else if stageOf status = "animating" ∨ strIncludes (stageOf status) "animat" = true then
    updateStep "animate" .active
      (some (jsOr (detailOf status) ("Rendering animations... " ++ toString (progressOf status) ++ "%")))
      (updateStep "segment" .completed (some "Segments created")
        (updateStep "extract" .completed none
          (updateStep "fetch" .completed none steps)))
  else if stageOf status = "completed" then
    steps.map (fun u => { u with status := StepStatus.completed })
  else if stageOf status = "failed" then
    steps.map (fun u =>
      if u.status = StepStatus.active then
        { u with status := StepStatus.error, description := jsOr (detailOf status) "Failed" }
      else u)
  else steps

/-- The all-completed update run by `handleSelectPaper` right after the
poll promise resolves (src/unnamed/part_000, line 182); the same map is
the `stage === 'completed'` branch of the mapper (line 170). -/
def completeAllSteps (steps : List Step) : List Step :=
  steps.map (fun u => { u with status := StepStatus.completed })

/-- The error update run by the `catch` handler of `handleSelectPaper`
(src/unnamed/part_000, lines 206-208): every step still `active` or
`pending` becomes `error`. -/
def failRemainingSteps (steps : List Step) : List Step :=
  steps.map (fun u =>
    if u.status = StepStatus.active ∨ u.status = StepStatus.pending then
      { u with status := StepStatus.error }
    else u)

/-- Result of one status request: either a snapshot or a transport error
message (the `catch` branch of `poll` in api.ts). -/
inductive FetchResult where
  | ok (s : JobStatus)
  | fetchError (msg : String)
deriving DecidableEq

/-- The mutable counters of `pollJobUntilComplete` (api.ts,
lines 196-197): `attempts` and `consecutiveErrors`. -/
structure TickState where
  attempts : Nat
  consecutiveErrors : Nat
deriving DecidableEq

/-- Settlement of the poll promise: `resolve(status)` or
`reject(new Error(msg))` in api.ts. -/
inductive PollResult where
  | resolve (s : JobStatus)
  | reject (msg : String)
deriving DecidableEq

/-- `const maxConsecutiveErrors = 10` (api.ts, line 198): a local
constant of `pollJobUntilComplete`, not a caller-supplied option. -/
def maxConsecutiveErrors : Nat := 10

/-- The rejection message built when the consecutive-error streak is
exhausted (api.ts, line 223). -/
def connLostMsg (e : String) : String :=
  "Connection lost after " ++ toString maxConsecutiveErrors ++ " retries: " ++ e

/-- The timeout rejection message (api.ts, line 212). -/
def timeoutMsg : String := "Job timed out after 30 minutes"

/-- Outcome of one execution of the `poll` closure: either the session
continues with new counters after a scheduled delay, or it settles.  The
`cb` component records the progress-callback invocation (made on every
successful fetch, before the terminal checks). -/
inductive TickOutcome where
  | next (st : TickState) (delayMs : Nat) (cb : Option JobStatus)
  | terminal (r : PollResult) (cb : Option JobStatus)
deriving DecidableEq

/-- One execution of the `poll` closure of `pollJobUntilComplete`
(api.ts, lines 200-226): increment `attempts`; on a successful fetch
reset `consecutiveErrors`, invoke the callback, and settle on a terminal
lifecycle or on attempt exhaustion, otherwise sleep `pollInterval`; on a
fetch error increment the streak and either sleep `pollInterval * 2` or
reject with the connection-lost message. -/
def pollStep (pollInterval maxAttempts : Nat) (st : TickState) (r : FetchResult) : TickOutcome :=
  match r with
  | .ok status =>
    if status.status = Lifecycle.completed then
      .terminal (.resolve status) (some status)
    else if status.status = Lifecycle.failed then
      .terminal (.reject (jsOrOpt status.error "Job failed")) (some status)
    else if maxAttempts ≤ st.attempts + 1 then
      .terminal (.reject timeoutMsg) (some status)
    else
      .next ⟨st.attempts + 1, 0⟩ pollInterval (some status)
  | .fetchError e =>
    if st.consecutiveErrors + 1 < maxConsecutiveErrors then
      .next ⟨st.attempts + 1, st.consecutiveErrors + 1⟩ (pollInterval * 2) none
    else
      .terminal (.reject (connLostMsg e)) none

/-- Observable events of a poll session, in order: each status request
with its result, each progress-callback invocation, each scheduled sleep,
and the settlement of the promise. -/
inductive PollEvent where
  | request (r : FetchResult)
  | callback (s : JobStatus)
  | sleep (ms : Nat)
  | settled (r : PollResult)
deriving DecidableEq

/-- Events contributed by an optional progress-callback invocation. -/
def cbEvents : Option JobStatus → List PollEvent
  | none => []
  | some s => [.callback s]

/-- Run the poll loop over a list of endpoint responses, starting from
the given counters, and record the session events.  The recursion stops
at the first settlement, exactly as `poll` schedules no further tick
after `resolve`/`reject`; if the response list runs out first the session
is still in flight and no settlement is recorded. -/
def pollAux (pollInterval maxAttempts : Nat) : TickState → List FetchResult → List PollEvent
  | _, [] => []
  | st, r :: rs =>
    PollEvent.request r ::
      (match pollStep pollInterval maxAttempts st r with
       | .terminal res cb => cbEvents cb ++ [PollEvent.settled res]
       | .next st2 d cb => cbEvents cb ++ PollEvent.sleep d :: pollAux pollInterval maxAttempts st2 rs)

/-- A full poll session from the initial counters `attempts = 0`,
`consecutiveErrors = 0` (api.ts, lines 196-197). -/
def pollEvents (pollInterval maxAttempts : Nat) (rs : List FetchResult) : List PollEvent :=
  pollAux pollInterval maxAttempts ⟨0, 0⟩ rs

/-- Project the settlement out of an event. -/
def settledOf : PollEvent → Option PollResult
  | .settled r => some r
  | _ => none

/-- Whether an event is the settlement of the session. -/
def isSettled (e : PollEvent) : Bool := (settledOf e).isSome

/-- Whether an event is a status request. -/
def isRequest : PollEvent → Bool
  | .request _ => true
  | _ => false

/-- Whether an event is a progress-callback invocation. -/
def isCallback : PollEvent → Bool
  | .callback _ => true
  | _ => false

/-- The terminal outcome of a session, when it settles within the given
responses. -/
def pollOutcome (pollInterval maxAttempts : Nat) (rs : List FetchResult) : Option PollResult :=
  (pollEvents pollInterval maxAttempts rs).findSome? settledOf

/-- Termination measure for the poll loop: while the attempt budget is
open, the remaining attempts plus the full error-streak allowance; once
the budget is spent, only the remaining error-streak allowance (any
success then settles at once). -/
def pollFuel (maxAttempts : Nat) (st : TickState) : Nat :=
  if st.attempts < maxAttempts then (maxAttempts - st.attempts) + 10
  else 10 - st.consecutiveErrors

/-- Modelled from the spec (sections 4.1 and 6): the recognized
configuration options `pollIntervalMs`, `maxAttempts`,
`maxConsecutiveErrors`, `backoffMultiplier`.  The source function
`pollJobUntilComplete` accepts only `pollInterval` and `maxAttempts`;
this record exists to compare the spec reading against the code. -/
structure PollConfig where
  pollIntervalMs : Nat
  maxAttempts : Nat
  maxConsecutiveErrors : Nat
  backoffMultiplier : Nat
deriving DecidableEq

/-- Modelled from the spec (section 4.1, steps 2-4, with the section 6
options): one tick of the spec reading of the poll loop, in which the
failure-streak tolerance and the backoff multiplier are taken from the
configuration rather than being fixed internals. -/
def specPollStep (cfg : PollConfig) (st : TickState) (r : FetchResult) : TickOutcome :=
  match r with
  | .ok status =>
    if status.status = Lifecycle.completed then
      .terminal (.resolve status) (some status)
    else if status.status = Lifecycle.failed then
      .terminal (.reject (jsOrOpt status.error "Job failed")) (some status)
    else if cfg.maxAttempts ≤ st.attempts + 1 then
      .terminal (.reject timeoutMsg) (some status)
    else
      .next ⟨st.attempts + 1, 0⟩ cfg.pollIntervalMs (some status)
  | .fetchError e =>
    if st.consecutiveErrors + 1 < cfg.maxConsecutiveErrors then
      .next ⟨st.attempts + 1, st.consecutiveErrors + 1⟩
        (cfg.pollIntervalMs * cfg.backoffMultiplier) none
    else
      .terminal
        (.reject ("connection lost after " ++ toString cfg.maxConsecutiveErrors ++ " retries: " ++ e))
        none

/-- Apply a list of snapshots to the initial pipeline state through the
stage mapper, in arrival order. -/
def applyFrom (st : List Step) (l : List JobStatus) : List Step :=
  l.foldl (fun acc s => handleProgress s acc) st

/-- A whole session of snapshots applied from the initial pipeline
state. -/
def applySnapshots (l : List JobStatus) : List Step :=
  applyFrom initialSteps l

/-- The pipeline index a non-terminal stage token activates, following
the dispatch order of `handleProgress`: `queued` and `fetch` tokens
activate step 0, `extract` step 1, `segment` step 2, `animat` step 3;
terminal and unrecognized tokens get no rank. -/
def stageRank (s : JobStatus) : Option Nat :=
  if stageOf s = "queued" then some 0
  else if stageOf s = "fetching" ∨ strIncludes (stageOf s) "fetch" = true then some 0
  else if stageOf s = "extracting" ∨ strIncludes (stageOf s) "extract" = true then some 1
  else if stageOf s = "segmenting" ∨ strIncludes (stageOf s) "segment" = true then some 2
  else if stageOf s = "animating" ∨ strIncludes (stageOf s) "animat" = true then some 3
  else none

/-- Whether every snapshot of a list carries a ranked (non-terminal)
stage token and the ranks advance monotonically, starting no lower than
`a`. -/
def ranksFrom (a : Nat) : List JobStatus → Bool
  | [] => true
  | s :: l =>
    match stageRank s with
    | some b => if a ≤ b then ranksFrom b l else false
    | none => false

/-- The status a step at position `j` holds after a snapshot of rank `a`
has been applied: positions before the active one are completed, the
active one is active, later ones untouched (pending on the forward
runs considered here). -/
def stepStatusAt (a j : Nat) : StepStatus :=
  if j < a then .completed else if j = a then .active else .pending

/-- The status a step at position `j` holds when the last applied rank is
`o`: all steps are pending before the first snapshot (`none`), and
`stepStatusAt` applies afterwards. -/
def priorStatusAt (o : Option Nat) (j : Nat) : StepStatus :=
  match o with
  | none => StepStatus.pending
  | some a => stepStatusAt a j

/-- The pipeline state reached by a forward run whose last applied rank
is `o` (`none` before the first snapshot): the four canonical step ids in
order, with statuses given by `priorStatusAt`. -/
def ShapeO (o : Option Nat) (st : List Step) : Prop :=
  ∃ s0 s1 s2 s3, st = [s0, s1, s2, s3] ∧
    s0.id = "fetch" ∧ s1.id = "extract" ∧ s2.id = "segment" ∧ s3.id = "animate" ∧
    s0.status = priorStatusAt o 0 ∧ s1.status = priorStatusAt o 1 ∧
    s2.status = priorStatusAt o 2 ∧ s3.status = priorStatusAt o 3

/-! ## Helper lemmas -/

theorem jsOrOpt_jsOrOpt (d : Option String) (y : String) :
    jsOrOpt d (jsOrOpt d y) = jsOrOpt d y := by
  cases d with
  | none => rfl
  | some s =>
    simp only [jsOrOpt, jsOr]
    by_cases h : s = "" <;> simp [h]

theorem applyStep_applyStep (i : String) (st : StepStatus) (d : Option String) (s : Step) :
    applyStep i st d (applyStep i st d s) = applyStep i st d s := by
  unfold applyStep
  by_cases h : s.id = i
  · simp [h, jsOrOpt_jsOrOpt]
  · simp [h]

theorem updateStep_updateStep (i : String) (st : StepStatus) (d : Option String)
    (l : List Step) :
    updateStep i st d (updateStep i st d l) = updateStep i st d l := by
  simp only [updateStep, List.map_map]
  refine List.map_congr_left fun x _ => ?_
  simp only [Function.comp_apply]
  exact applyStep_applyStep i st d x

theorem connLostMsg_ne_timeoutMsg (e : String) : connLostMsg e ≠ timeoutMsg := by
  intro h
  have h2 := congrArg String.length h
  have h3 : 34 + e.length = 30 := by
    simpa [connLostMsg, timeoutMsg, String.length_append,
      show ("Connection lost after ").length = 22 from rfl,
      show (toString maxConsecutiveErrors).length = 2 from rfl,
      show (" retries: ").length = 10 from rfl,
      show ("Job timed out after 30 minutes").length = 30 from rfl] using h2
  omega

/-! ## C10: snapshots with an unrecognized (or absent) stage token are a
no-op for the pipeline -/

/-- C10: applying a snapshot whose lowercased stage token is absent or
matches none of the dispatch tokens (`queued`, `fetch`, `extract`,
`segment`, `animat`, `completed`, `failed`) leaves every step exactly
unchanged; in particular a snapshot with lifecycle `queued` but no stage
field advances nothing, because `handleProgress` dispatches on the stage
token, not the lifecycle. -/
theorem unrecognized_stage_is_noop :
    (∀ (s : JobStatus) (steps : List Step),
        stageOf s ≠ "queued" →
        strIncludes (stageOf s) "fetch" = false →
        strIncludes (stageOf s) "extract" = false →
        strIncludes (stageOf s) "segment" = false →
        strIncludes (stageOf s) "animat" = false →
        stageOf s ≠ "completed" →
        stageOf s ≠ "failed" →
        handleProgress s steps = steps)
    ∧ ∀ steps : List Step,
        handleProgress { job_id := "j", status := Lifecycle.queued } steps = steps := by
  constructor
  · intro s steps h1 h2 h3 h4 h5 h6 h7
    unfold handleProgress
    rw [if_neg h1]
    rw [if_neg (by rintro (h | h)
                   · rw [h] at h2; exact absurd h2 (by decide)
                   · rw [h2] at h; exact absurd h (by decide))]
    rw [if_neg (by rintro (h | h)
                   · rw [h] at h3; exact absurd h3 (by decide)
                   · rw [h3] at h; exact absurd h (by decide))]
    rw [if_neg (by rintro (h | h)
                   · rw [h] at h4; exact absurd h4 (by decide)
                   · rw [h4] at h; exact absurd h (by decide))]
    rw [if_neg (by rintro (h | h)
                   · rw [h] at h5; exact absurd h5 (by decide)
                   · rw [h5] at h; exact absurd h (by decide))]
    rw [if_neg h6, if_neg h7]
  · intro steps
    unfold handleProgress
    rw [if_neg (by decide), if_neg (by decide), if_neg (by decide), if_neg (by decide),
      if_neg (by decide), if_neg (by decide), if_neg (by decide)]

/-- C10 witness: a concrete snapshot with stage `"uploading"` (which
matches no dispatch token) and the queued-lifecycle snapshot both leave
the initial pipeline unchanged. -/
theorem unrecognized_stage_is_noop_witness :
    handleProgress { job_id := "j", status := Lifecycle.processing, stage := some "uploading" }
        initialSteps = initialSteps ∧
    handleProgress { job_id := "j", status := Lifecycle.queued } initialSteps = initialSteps :=
  ⟨unrecognized_stage_is_noop.1
      { job_id := "j", status := Lifecycle.processing, stage := some "uploading" }
      initialSteps (by decide) (by decide) (by decide) (by decide) (by decide) (by decide)
      (by decide),
   unrecognized_stage_is_noop.2 initialSteps⟩

/-! ## C2: a completed lifecycle resolves the session and completes all
steps -/

/-- C2: whenever a snapshot with lifecycle `completed` is observed, the
poll tick settles the session by resolving with that very snapshot (which
carries its `result` payload), regardless of the counters; and the
success continuation of `handleSelectPaper` then maps every step of the
pipeline — whatever its prior partial state — to `completed`.  The
`stage === 'completed'` branch of the mapper performs the same map. -/
theorem completed_lifecycle_resolves_and_completes_all :
    (∀ (pollInterval maxAttempts : Nat) (st : TickState) (s : JobStatus),
        s.status = Lifecycle.completed →
        pollStep pollInterval maxAttempts st (.ok s) = .terminal (.resolve s) (some s))
    ∧ (∀ steps : List Step,
        (completeAllSteps steps).length = steps.length ∧
        ∀ e ∈ completeAllSteps steps, e.status = StepStatus.completed)
    ∧ (∀ (s : JobStatus) (steps : List Step), stageOf s = "completed" →
        handleProgress s steps = completeAllSteps steps) := by
  refine ⟨?_, ?_, ?_⟩
  · intro I M st s hs
    simp [pollStep, hs]
  · intro steps
    constructor
    · simp [completeAllSteps]
    · intro e he
      simp only [completeAllSteps, List.mem_map] at he
      obtain ⟨u, _, rfl⟩ := he
      rfl
  · intro s steps hs
    unfold handleProgress completeAllSteps
    rw [hs]
    rw [if_neg (by decide), if_neg (by decide), if_neg (by decide), if_neg (by decide),
      if_neg (by decide), if_pos rfl]

/-- C2 witness: a concrete completed snapshot resolves the tick from
mid-session counters, and the success continuation completes all four
steps of a partially advanced pipeline. -/
theorem completed_lifecycle_resolves_and_completes_all_witness :
    pollStep 3000 600 ⟨7, 3⟩
        (.ok { job_id := "j", status := Lifecycle.completed, result := some "payload" }) =
      .terminal (.resolve { job_id := "j", status := Lifecycle.completed, result := some "payload" })
        (some { job_id := "j", status := Lifecycle.completed, result := some "payload" }) ∧
    handleProgress { job_id := "j", status := Lifecycle.completed, stage := some "completed" }
        initialSteps = completeAllSteps initialSteps :=
  ⟨completed_lifecycle_resolves_and_completes_all.1 3000 600 ⟨7, 3⟩
      { job_id := "j", status := Lifecycle.completed, result := some "payload" } rfl,
   completed_lifecycle_resolves_and_completes_all.2.2
      { job_id := "j", status := Lifecycle.completed, stage := some "completed" }
      initialSteps (by decide)⟩

/-! ## C3: the failed branch of the mapper -/

/-- C3 counterexample: a snapshot with lifecycle `failed` but no stage
field does not touch the pipeline at all — the mapper dispatches on the
stage token, so the unique active step stays `active` instead of becoming
`error` as the claim states. -/
theorem failed_lifecycle_without_stage_cex :
    handleProgress { job_id := "j", status := Lifecycle.failed, stage_detail := some "boom" }
        [ { id := "fetch", title := "Fetching Paper", description := "Paper downloaded", status := .completed },
          { id := "extract", title := "Extracting", description := "Analyzing content...", status := .active },
          { id := "segment", title := "Segmenting", description := "Breaking down...", status := .pending },
          { id := "animate", title := "Animating", description := "Creating visuals...", status := .pending } ]
      = [ { id := "fetch", title := "Fetching Paper", description := "Paper downloaded", status := .completed },
          { id := "extract", title := "Extracting", description := "Analyzing content...", status := .active },
          { id := "segment", title := "Segmenting", description := "Breaking down...", status := .pending },
          { id := "animate", title := "Animating", description := "Creating visuals...", status := .pending } ] := by
  decide

/-- C3 (amended): for every pipeline state with exactly one `active`
step, processing a snapshot whose lowercased *stage token* is `failed`
sets exactly that step to `error` with description the stage detail (or
`"Failed"` when absent or empty) and leaves every other step — completed
or pending — entirely unchanged. -/
theorem failed_stage_marks_active_step_error
    (s : JobStatus) (pre suf : List Step) (act : Step)
    (hs : stageOf s = "failed")
    (hact : act.status = StepStatus.active)
    (hpre : ∀ e ∈ pre, e.status ≠ StepStatus.active)
    (hsuf : ∀ e ∈ suf, e.status ≠ StepStatus.active) :
    handleProgress s (pre ++ act :: suf) =
      pre ++ { act with status := StepStatus.error,
                        description := jsOr (detailOf s) "Failed" } :: suf := by
  unfold handleProgress
  rw [hs]
  rw [if_neg (by decide), if_neg (by decide), if_neg (by decide), if_neg (by decide),
    if_neg (by decide), if_neg (by decide), if_pos rfl]
  rw [List.map_append, List.map_cons]
  have hpre2 := List.map_congr_left (l := pre)
    (f := fun u => if u.status = StepStatus.active then
        { u with status := StepStatus.error, description := jsOr (detailOf s) "Failed" }
      else u) (g := id) (fun e he => if_neg (hpre e he))
  have hsuf2 := List.map_congr_left (l := suf)
    (f := fun u => if u.status = StepStatus.active then
        { u with status := StepStatus.error, description := jsOr (detailOf s) "Failed" }
      else u) (g := id) (fun e he => if_neg (hsuf e he))
  rw [hpre2, hsuf2, if_pos hact]
  simp

/-- C3 witness: the concrete failed-stage snapshot marks the unique
active step `extract` as `error` with the stage detail, leaving the
completed `fetch` step and the pending tail untouched. -/
theorem failed_stage_marks_active_step_error_witness :
    handleProgress
        { job_id := "j", status := Lifecycle.failed, stage := some "failed",
          stage_detail := some "render exploded" }
        ( [ { id := "fetch", title := "Fetching Paper", description := "Paper downloaded",
              status := .completed } ] ++
          { id := "extract", title := "Extracting", description := "Analyzing content...",
            status := .active } ::
          [ { id := "segment", title := "Segmenting", description := "Breaking down...",
              status := .pending },
            { id := "animate", title := "Animating", description := "Creating visuals...",
              status := .pending } ] ) =
      [ { id := "fetch", title := "Fetching Paper", description := "Paper downloaded",
          status := .completed } ] ++
        { id := "extract", title := "Extracting", description := "render exploded",
          status := .error } ::
        [ { id := "segment", title := "Segmenting", description := "Breaking down...",
            status := .pending },
          { id := "animate", title := "Animating", description := "Creating visuals...",
            status := .pending } ] :=
  failed_stage_marks_active_step_error
    { job_id := "j", status := Lifecycle.failed, stage := some "failed",
      stage_detail := some "render exploded" }
    [ { id := "fetch", title := "Fetching Paper", description := "Paper downloaded",
        status := .completed } ]
    [ { id := "segment", title := "Segmenting", description := "Breaking down...",
        status := .pending },
      { id := "animate", title := "Animating", description := "Creating visuals...",
        status := .pending } ]
    { id := "extract", title := "Extracting", description := "Analyzing content...",
      status := .active }
    (by decide) (by decide) (by decide) (by decide)

/-! ## C7: transient fetch failures back off and never time the session
out directly -/

/-- C7: a tick that hits a fetch failure never produces the timeout
rejection (the attempt-budget check is reached only on the successful
branch of `poll`): below the streak limit it schedules the next tick
after twice the base poll interval (a fixed multiple, no immediate
retry), and at the limit it rejects with the connection-lost message,
which differs from the timeout message. -/
theorem fetch_failure_never_timeout_and_backs_off
    (pollInterval maxAttempts : Nat) (st : TickState) (e : String) :
    (st.consecutiveErrors + 1 < maxConsecutiveErrors →
       pollStep pollInterval maxAttempts st (.fetchError e) =
         .next ⟨st.attempts + 1, st.consecutiveErrors + 1⟩ (pollInterval * 2) none)
    ∧ (maxConsecutiveErrors ≤ st.consecutiveErrors + 1 →
       pollStep pollInterval maxAttempts st (.fetchError e) =
         .terminal (.reject (connLostMsg e)) none)
    ∧ ∀ cb, pollStep pollInterval maxAttempts st (.fetchError e) ≠
        .terminal (.reject timeoutMsg) cb := by
  refine ⟨?_, ?_, ?_⟩
  · intro h
    simp [pollStep, h]
  · intro h
    simp [pollStep, Nat.not_lt.mpr h]
  · intro cb hEq
    by_cases h : st.consecutiveErrors + 1 < maxConsecutiveErrors
    · simp [pollStep, h] at hEq
    · simp [pollStep, h] at hEq
      exact connLostMsg_ne_timeoutMsg e hEq.1

/-- C7 witness: concrete ticks below and at the streak limit. -/
theorem fetch_failure_never_timeout_and_backs_off_witness :
    pollStep 3000 600 ⟨0, 0⟩ (.fetchError "boom") = .next ⟨1, 1⟩ 6000 none ∧
    pollStep 3000 600 ⟨42, 9⟩ (.fetchError "boom") =
      .terminal (.reject (connLostMsg "boom")) none ∧
    pollStep 3000 600 ⟨42, 9⟩ (.fetchError "boom") ≠ .terminal (.reject timeoutMsg) none :=
  ⟨(fetch_failure_never_timeout_and_backs_off 3000 600 ⟨0, 0⟩ "boom").1 (by decide),
   (fetch_failure_never_timeout_and_backs_off 3000 600 ⟨42, 9⟩ "boom").2.1 (by decide),
   (fetch_failure_never_timeout_and_backs_off 3000 600 ⟨42, 9⟩ "boom").2.2 none⟩

/-! ## C1 counterexample: the mapper has no monotonicity clamp -/

/-- C1 counterexample: after a `segmenting` snapshot the `extract` step
is `completed`, yet a following `extracting` snapshot sets it straight
back to `active` — `updateStep` assigns statuses unconditionally, so a
later snapshot mapping to an earlier stage is not a no-op for a step
already at a terminal status. -/
theorem stage_regression_cex :
    ((handleProgress { job_id := "j", status := Lifecycle.processing, stage := some "segmenting" }
        initialSteps).map Step.status)[1]? = some StepStatus.completed
    ∧ ((handleProgress { job_id := "j", status := Lifecycle.processing, stage := some "extracting" }
        (handleProgress { job_id := "j", status := Lifecycle.processing, stage := some "segmenting" }
          initialSteps)).map Step.status)[1]? = some StepStatus.active := by
  decide

/-! ## C4: attempt exhaustion on an always-processing endpoint -/

/-- C4: with `maxAttempts = 3` and an endpoint whose every response is a
successful fetch with lifecycle `processing`, the session settles with
the timeout rejection, and the event log contains exactly 3 status
requests. -/
theorem three_attempts_processing_times_out
    (pollInterval : Nat) (rs : List FetchResult)
    (hall : ∀ r ∈ rs, ∃ s, r = FetchResult.ok s ∧ s.status = Lifecycle.processing)
    (hlen : 3 ≤ rs.length) :
    pollOutcome pollInterval 3 rs = some (.reject timeoutMsg) ∧
    (pollEvents pollInterval 3 rs).countP isRequest = 3 := by
  match rs with
  | r1 :: r2 :: r3 :: rest =>
    obtain ⟨s1, rfl, h1⟩ := hall r1 (by simp)
    obtain ⟨s2, rfl, h2⟩ := hall r2 (by simp)
    obtain ⟨s3, rfl, h3⟩ := hall r3 (by simp)
    have t1 : pollStep pollInterval 3 ⟨0, 0⟩ (.ok s1) = .next ⟨1, 0⟩ pollInterval (some s1) := by
      simp [pollStep, h1]
    have t2 : pollStep pollInterval 3 ⟨1, 0⟩ (.ok s2) = .next ⟨2, 0⟩ pollInterval (some s2) := by
      simp [pollStep, h2]
    have t3 : pollStep pollInterval 3 ⟨2, 0⟩ (.ok s3) = .terminal (.reject timeoutMsg) (some s3) := by
      simp [pollStep, h3]
    constructor
    · simp [pollOutcome, pollEvents, pollAux, t1, t2, t3, cbEvents, List.findSome?, settledOf]
    · simp [pollEvents, pollAux, t1, t2, t3, cbEvents, isRequest, List.countP_cons]
  | [] => simp at hlen
  | [r1] => simp at hlen
  | [r1, r2] => simp at hlen

/-- C4 witness: three concrete processing responses. -/
theorem three_attempts_processing_times_out_witness :
    pollOutcome 3000 3
        (List.replicate 3 (FetchResult.ok { job_id := "j", status := Lifecycle.processing })) =
      some (.reject timeoutMsg) ∧
    (pollEvents 3000 3
        (List.replicate 3 (FetchResult.ok { job_id := "j", status := Lifecycle.processing }))).countP
      isRequest = 3 :=
  three_attempts_processing_times_out 3000
    (List.replicate 3 (FetchResult.ok { job_id := "j", status := Lifecycle.processing }))
    (by
      intro r hr
      simp only [List.mem_replicate] at hr
      exact ⟨{ job_id := "j", status := Lifecycle.processing }, hr.2, rfl⟩)
    (by decide)

/-! ## C5: streak reset on success and streak-exhaustion failure -/

theorem allErrors_settles (pollInterval maxAttempts : Nat) :
    ∀ (ms : List String) (e : String) (a c : Nat),
      c + (ms.length + 1) = maxConsecutiveErrors →
      (pollAux pollInterval maxAttempts ⟨a, c⟩
          ((ms ++ [e]).map FetchResult.fetchError)).findSome? settledOf
        = some (.reject (connLostMsg e)) := by
  intro ms
  induction ms with
  | nil =>
    intro e a c hc
    have hc9 : c = 9 := by
      simp [maxConsecutiveErrors] at hc
      omega
    subst hc9
    simp [pollAux, pollStep, maxConsecutiveErrors, cbEvents, settledOf, List.findSome?]
  | cons m ms ih =>
    intro e a c hc
    have hc2 : c + (ms.length + 1 + 1) = 10 := by
      simpa [maxConsecutiveErrors] using hc
    have hlt : c + 1 < maxConsecutiveErrors := by
      simp [maxConsecutiveErrors]
      omega
    have tstep : pollStep pollInterval maxAttempts ⟨a, c⟩ (.fetchError m) =
        .next ⟨a + 1, c + 1⟩ (pollInterval * 2) none := by
      simp [pollStep, hlt]
    have hnext := ih e (a + 1) (c + 1) (by simp [maxConsecutiveErrors]; omega)
    simp only [List.map_append, List.map] at hnext
    simp [pollAux, tstep, cbEvents, settledOf, List.findSome?, hnext]

/-- C5: a successful fetch always resets `consecutiveErrors` to 0 in the
continuation state (so two fetch failures followed by a success continue
the session normally, as the concrete three-response run shows), and when
fetch failures reach `maxConsecutiveErrors` with no intervening success
the session settles rejected with the connection-lost reason, which cites
the streak limit and the last underlying error. -/
theorem error_reset_and_streak_exhaustion :
    (∀ (pollInterval maxAttempts : Nat) (st : TickState) (s : JobStatus)
        (st2 : TickState) (d : Nat) (cb : Option JobStatus),
        pollStep pollInterval maxAttempts st (.ok s) = .next st2 d cb →
        st2.consecutiveErrors = 0)
    ∧ pollAux 3000 600 ⟨0, 0⟩
        [.fetchError "e1", .fetchError "e2",
         .ok { job_id := "j", status := Lifecycle.processing, stage := some "fetching" }] =
        [ .request (.fetchError "e1"), .sleep 6000,
          .request (.fetchError "e2"), .sleep 6000,
          .request (.ok { job_id := "j", status := Lifecycle.processing, stage := some "fetching" }),
          .callback { job_id := "j", status := Lifecycle.processing, stage := some "fetching" },
          .sleep 3000 ]
    ∧ ∀ (pollInterval maxAttempts : Nat) (ms : List String) (e : String),
        ms.length + 1 = maxConsecutiveErrors →
        pollOutcome pollInterval maxAttempts ((ms ++ [e]).map FetchResult.fetchError)
          = some (.reject (connLostMsg e)) := by
  refine ⟨?_, by decide, ?_⟩
  · intro I M st s st2 d cb h
    by_cases h1 : s.status = Lifecycle.completed
    · simp [pollStep, h1] at h
    by_cases h2 : s.status = Lifecycle.failed
    · simp [pollStep, h1, h2] at h
    by_cases h3 : M ≤ st.attempts + 1
    · simp [pollStep, h1, h2, h3] at h
    · simp only [pollStep] at h
      rw [if_neg h1, if_neg h2, if_neg h3] at h
      injection h with ha hb hc
      subst ha
      rfl
  · intro I M ms e hlen
    unfold pollOutcome pollEvents
    exact allErrors_settles I M ms e 0 0 (by omega)

/-- C5 witness: the reset at a concrete successful tick, and the
connection-lost settlement after 10 concrete consecutive errors. -/
theorem error_reset_and_streak_exhaustion_witness :
    (TickState.mk 3 0).consecutiveErrors = 0 ∧
    pollOutcome 3000 600
        ((["e1", "e2", "e3", "e4", "e5", "e6", "e7", "e8", "e9"] ++ ["last"]).map
          FetchResult.fetchError) = some (.reject (connLostMsg "last")) :=
  ⟨error_reset_and_streak_exhaustion.1 3000 600 ⟨2, 2⟩
      { job_id := "j", status := Lifecycle.processing } ⟨3, 0⟩ 3000
      (some { job_id := "j", status := Lifecycle.processing }) (by decide),
   error_reset_and_streak_exhaustion.2.2 3000 600
      ["e1", "e2", "e3", "e4", "e5", "e6", "e7", "e8", "e9"] "last" (by decide)⟩

/-! ## C9: which timing constants are configurable -/

/-- C9 counterexample: the code cannot honor a requested
`maxConsecutiveErrors = 2` or `backoffMultiplier = 3`: on the second
consecutive error its tick keeps polling with the hardwired backoff
`pollInterval * 2 = 6000`, while the spec-modelled configurable tick with
those options would already settle rejected (and would have backed off by
`3000 * 3 = 9000`). -/
theorem fixed_retry_policy_cex :
    pollStep 3000 600 ⟨5, 1⟩ (.fetchError "boom") = .next ⟨6, 2⟩ 6000 none ∧
    specPollStep ⟨3000, 600, 2, 3⟩ ⟨5, 1⟩ (.fetchError "boom") =
      .terminal (.reject "connection lost after 2 retries: boom") none ∧
    (6000 : Nat) ≠ 3000 * 3 := by
  decide

/-- C9 (amended): the polling layer recognizes `pollInterval` and
`maxAttempts` as caller-supplied options, and they govern the
success-path scheduling and the attempt-exhaustion check; the
failure-streak tolerance is the fixed internal constant
`maxConsecutiveErrors = 10`, and the backoff on transient failure is the
fixed multiple 2 of the base poll interval. -/
theorem poll_recognizes_interval_and_attempts_only
    (pollInterval maxAttempts : Nat) (st : TickState) (s : JobStatus) (e : String) :
    (s.status ≠ Lifecycle.completed → s.status ≠ Lifecycle.failed →
       maxAttempts ≤ st.attempts + 1 →
       pollStep pollInterval maxAttempts st (.ok s) = .terminal (.reject timeoutMsg) (some s))
    ∧ (s.status ≠ Lifecycle.completed → s.status ≠ Lifecycle.failed →
       st.attempts + 1 < maxAttempts →
       pollStep pollInterval maxAttempts st (.ok s) =
         .next ⟨st.attempts + 1, 0⟩ pollInterval (some s))
    ∧ (st.consecutiveErrors + 1 < maxConsecutiveErrors →
       pollStep pollInterval maxAttempts st (.fetchError e) =
         .next ⟨st.attempts + 1, st.consecutiveErrors + 1⟩ (pollInterval * 2) none)
    ∧ (maxConsecutiveErrors ≤ st.consecutiveErrors + 1 →
       pollStep pollInterval maxAttempts st (.fetchError e) =
         .terminal (.reject (connLostMsg e)) none)
    ∧ maxConsecutiveErrors = 10 := by
  refine ⟨?_, ?_, ?_, ?_, rfl⟩
  · intro h1 h2 h3
    simp [pollStep, h1, h2, h3]
  · intro h1 h2 h3
    simp [pollStep, h1, h2, Nat.not_le.mpr h3]
  · intro h
    simp [pollStep, h]
  · intro h
    simp [pollStep, Nat.not_lt.mpr h]

/-- C9 amended witness: concrete ticks exercising each configured and
each fixed policy constant. -/
theorem poll_recognizes_interval_and_attempts_only_witness :
    pollStep 3000 3 ⟨2, 0⟩ (.ok { job_id := "j", status := Lifecycle.processing }) =
      .terminal (.reject timeoutMsg) (some { job_id := "j", status := Lifecycle.processing }) ∧
    pollStep 3000 600 ⟨2, 0⟩ (.ok { job_id := "j", status := Lifecycle.processing }) =
      .next ⟨3, 0⟩ 3000 (some { job_id := "j", status := Lifecycle.processing }) ∧
    pollStep 3000 600 ⟨5, 1⟩ (.fetchError "x") = .next ⟨6, 2⟩ 6000 none ∧
    pollStep 3000 600 ⟨5, 9⟩ (.fetchError "x") = .terminal (.reject (connLostMsg "x")) none :=
  ⟨(poll_recognizes_interval_and_attempts_only 3000 3 ⟨2, 0⟩
      { job_id := "j", status := Lifecycle.processing } "x").1 (by decide) (by decide) (by decide),
   (poll_recognizes_interval_and_attempts_only 3000 600 ⟨2, 0⟩
      { job_id := "j", status := Lifecycle.processing } "x").2.1 (by decide) (by decide) (by decide),
   (poll_recognizes_interval_and_attempts_only 3000 600 ⟨5, 1⟩
      { job_id := "j", status := Lifecycle.processing } "x").2.2.1 (by decide),
   (poll_recognizes_interval_and_attempts_only 3000 600 ⟨5, 9⟩
      { job_id := "j", status := Lifecycle.processing } "x").2.2.2.1 (by decide)⟩

/-! ## C8: idempotence of the stage mapper -/

theorem updateStep_chain2_idem (i1 i2 : String) (st1 st2 : StepStatus)
    (d1 d2 : Option String) (h : i1 ≠ i2) (l : List Step) :
    updateStep i1 st1 d1 (updateStep i2 st2 d2 (updateStep i1 st1 d1 (updateStep i2 st2 d2 l))) =
      updateStep i1 st1 d1 (updateStep i2 st2 d2 l) := by
  simp only [updateStep, List.map_map]
  refine List.map_congr_left fun x _ => ?_
  simp only [Function.comp_apply]
  by_cases h2 : x.id = i2
  · simp [applyStep, h2, Ne.symm h, jsOrOpt_jsOrOpt]
  · by_cases h1 : x.id = i1
    · simp [applyStep, h1, h, jsOrOpt_jsOrOpt]
    · simp [applyStep, h1, h2]

theorem updateStep_chain3_idem (i1 i2 i3 : String) (st1 st2 st3 : StepStatus)
    (d1 d2 d3 : Option String) (h12 : i1 ≠ i2) (h13 : i1 ≠ i3) (h23 : i2 ≠ i3)
    (l : List Step) :
    updateStep i1 st1 d1 (updateStep i2 st2 d2 (updateStep i3 st3 d3
        (updateStep i1 st1 d1 (updateStep i2 st2 d2 (updateStep i3 st3 d3 l))))) =
      updateStep i1 st1 d1 (updateStep i2 st2 d2 (updateStep i3 st3 d3 l)) := by
  simp only [updateStep, List.map_map]
  refine List.map_congr_left fun x _ => ?_
  simp only [Function.comp_apply]
  by_cases h3 : x.id = i3
  · simp [applyStep, h3, Ne.symm h13, Ne.symm h23, jsOrOpt_jsOrOpt]
  · by_cases h2 : x.id = i2
    · simp [applyStep, h2, Ne.symm h12, h23, jsOrOpt_jsOrOpt]
    · by_cases h1 : x.id = i1
      · simp [applyStep, h1, h12, h13, jsOrOpt_jsOrOpt]
      · simp [applyStep, h1, h2, h3]

theorem updateStep_chain4_idem (i1 i2 i3 i4 : String) (st1 st2 st3 st4 : StepStatus)
    (d1 d2 d3 d4 : Option String) (h12 : i1 ≠ i2) (h13 : i1 ≠ i3) (h14 : i1 ≠ i4)
    (h23 : i2 ≠ i3) (h24 : i2 ≠ i4) (h34 : i3 ≠ i4) (l : List Step) :
    updateStep i1 st1 d1 (updateStep i2 st2 d2 (updateStep i3 st3 d3 (updateStep i4 st4 d4
        (updateStep i1 st1 d1 (updateStep i2 st2 d2 (updateStep i3 st3 d3
          (updateStep i4 st4 d4 l))))))) =
      updateStep i1 st1 d1 (updateStep i2 st2 d2 (updateStep i3 st3 d3
        (updateStep i4 st4 d4 l))) := by
  simp only [updateStep, List.map_map]
  refine List.map_congr_left fun x _ => ?_
  simp only [Function.comp_apply]
  by_cases h4 : x.id = i4
  · simp [applyStep, h4, Ne.symm h14, Ne.symm h24, Ne.symm h34, jsOrOpt_jsOrOpt]
  · by_cases h3 : x.id = i3
    · simp [applyStep, h3, Ne.symm h13, Ne.symm h23, h34, jsOrOpt_jsOrOpt]
    · by_cases h2 : x.id = i2
      · simp [applyStep, h2, Ne.symm h12, h23, h24, jsOrOpt_jsOrOpt]
      · by_cases h1 : x.id = i1
        · simp [applyStep, h1, h12, h13, h14, jsOrOpt_jsOrOpt]
        · simp [applyStep, h1, h2, h3, h4]

/-- C8: the stage mapper is idempotent — applying the same snapshot twice
in succession yields exactly the same pipeline-step sequence as applying
it once, for every snapshot and every pipeline state. -/
theorem handleProgress_idempotent (s : JobStatus) (steps : List Step) :
    handleProgress s (handleProgress s steps) = handleProgress s steps := by
  unfold handleProgress
  split_ifs
  · exact updateStep_updateStep _ _ _ _
  · exact updateStep_updateStep _ _ _ _
  · exact updateStep_chain2_idem _ _ _ _ _ _ (by decide) steps
  · exact updateStep_chain3_idem _ _ _ _ _ _ _ _ _ (by decide) (by decide) (by decide) steps
  · exact updateStep_chain4_idem _ _ _ _ _ _ _ _ _ _ _ _ (by decide) (by decide) (by decide)
      (by decide) (by decide) (by decide) steps
  · simp only [List.map_map]
    exact List.map_congr_left fun x _ => rfl
  · simp only [List.map_map]
    refine List.map_congr_left fun x _ => ?_
    simp only [Function.comp_apply]
    by_cases hx : x.status = StepStatus.active
    · simp [hx]
    · simp [hx]
  · rfl

/-! ## C6: exactly one settlement, nothing after it -/

theorem pollAux_shape (pollInterval maxAttempts : Nat) :
    ∀ (rs : List FetchResult) (st : TickState),
      (∀ x ∈ pollAux pollInterval maxAttempts st rs, isSettled x = false) ∨
      (∃ l r, pollAux pollInterval maxAttempts st rs = l ++ [PollEvent.settled r] ∧
        ∀ x ∈ l, isSettled x = false) := by
  intro rs
  induction rs with
  | nil =>
    intro st
    left
    intro x hx
    simp [pollAux] at hx
  | cons r rs ih =>
    intro st
    cases hstep : pollStep pollInterval maxAttempts st r with
    | terminal res cb =>
      right
      refine ⟨PollEvent.request r :: cbEvents cb, res, ?_, ?_⟩
      · simp [pollAux, hstep]
      · intro x hx
        cases cb with
        | none =>
          simp [cbEvents] at hx
          subst hx
          rfl
        | some s =>
          simp [cbEvents] at hx
          rcases hx with rfl | rfl <;> rfl
    | next st2 d cb =>
      rcases ih st2 with hno | ⟨l, res, heq, hl⟩
      · left
        intro x hx
        cases cb with
        | none =>
          simp [pollAux, hstep, cbEvents] at hx
          rcases hx with rfl | rfl | hx
          · rfl
          · rfl
          · exact hno x hx
        | some s =>
          simp [pollAux, hstep, cbEvents] at hx
          rcases hx with rfl | rfl | rfl | hx
          · rfl
          · rfl
          · rfl
          · exact hno x hx
      · right
        refine ⟨PollEvent.request r :: (cbEvents cb ++ PollEvent.sleep d :: l), res, ?_, ?_⟩
        · simp [pollAux, hstep, heq]
        · intro x hx
          cases cb with
          | none =>
            simp [cbEvents] at hx
            rcases hx with rfl | rfl | hx
            · rfl
            · rfl
            · exact hl x hx
          | some s =>
            simp [cbEvents] at hx
            rcases hx with rfl | rfl | rfl | hx
            · rfl
            · rfl
            · rfl
            · exact hl x hx

theorem pollAux_terminates (pollInterval maxAttempts : Nat) :
    ∀ (rs : List FetchResult) (st : TickState),
      st.consecutiveErrors < 10 →
      pollFuel maxAttempts st ≤ rs.length →
      ∃ r, PollEvent.settled r ∈ pollAux pollInterval maxAttempts st rs := by
  intro rs
  induction rs with
  | nil =>
    intro st hce hfuel
    exfalso
    simp only [List.length_nil, Nat.le_zero] at hfuel
    by_cases hM : st.attempts < maxAttempts
    · rw [pollFuel, if_pos hM] at hfuel
      omega
    · rw [pollFuel, if_neg hM] at hfuel
      omega
  | cons r rs ih =>
    intro st hce hfuel
    simp only [List.length_cons] at hfuel
    cases r with
    | ok s =>
      by_cases hcpl : s.status = Lifecycle.completed
      · exact ⟨.resolve s, by simp [pollAux, pollStep, hcpl, cbEvents]⟩
      by_cases hfail : s.status = Lifecycle.failed
      · exact ⟨.reject (jsOrOpt s.error "Job failed"),
          by simp [pollAux, pollStep, hcpl, hfail, cbEvents]⟩
      by_cases htime : maxAttempts ≤ st.attempts + 1
      · exact ⟨.reject timeoutMsg, by simp [pollAux, pollStep, hcpl, hfail, htime, cbEvents]⟩
      · have hM : st.attempts < maxAttempts := by omega
        have hM2 : st.attempts + 1 < maxAttempts := by omega
        have hfuel2 : pollFuel maxAttempts ⟨st.attempts + 1, 0⟩ ≤ rs.length := by
          simp only [pollFuel] at hfuel ⊢
          split at hfuel <;> split <;> omega
        obtain ⟨r0, hr0⟩ := ih ⟨st.attempts + 1, 0⟩ (Nat.succ_le_succ (Nat.zero_le 9)) hfuel2
        refine ⟨r0, ?_⟩
        have hstep : pollStep pollInterval maxAttempts st (.ok s) =
            .next ⟨st.attempts + 1, 0⟩ pollInterval (some s) := by
          simp [pollStep, hcpl, hfail, htime]
        simp [pollAux, hstep, cbEvents]
        exact hr0
    | fetchError e =>
      by_cases herr : st.consecutiveErrors + 1 < maxConsecutiveErrors
      · have hce2 : st.consecutiveErrors + 1 < 10 := by
          simpa [maxConsecutiveErrors] using herr
        have hfuel2 : pollFuel maxAttempts ⟨st.attempts + 1, st.consecutiveErrors + 1⟩ ≤
            rs.length := by
          simp only [pollFuel] at hfuel ⊢
          split at hfuel <;> split <;> omega
        obtain ⟨r0, hr0⟩ := ih ⟨st.attempts + 1, st.consecutiveErrors + 1⟩ hce2 hfuel2
        refine ⟨r0, ?_⟩
        have hstep : pollStep pollInterval maxAttempts st (.fetchError e) =
            .next ⟨st.attempts + 1, st.consecutiveErrors + 1⟩ (pollInterval * 2) none := by
          simp [pollStep, herr]
        simp [pollAux, hstep, cbEvents]
        exact hr0
      · refine ⟨.reject (connLostMsg e), ?_⟩
        have hstep : pollStep pollInterval maxAttempts st (.fetchError e) =
            .terminal (.reject (connLostMsg e)) none := by
          simp [pollStep, herr]
        simp [pollAux, hstep, cbEvents]

/-- C6: every poll session settles at most once — the event log never
holds two settlements, and any settlement is the final event, so no
progress callback (nor any other event) ever follows the terminal
outcome; and the session does settle, hence exactly one outcome, whenever
the endpoint supplies at least `maxAttempts + 10` responses (answering
every tick the loop can possibly issue). -/
theorem poll_settles_exactly_once :
    (∀ (pollInterval maxAttempts : Nat) (st : TickState) (rs : List FetchResult),
        (pollAux pollInterval maxAttempts st rs).countP isSettled ≤ 1)
    ∧ (∀ (pollInterval maxAttempts : Nat) (st : TickState) (rs : List FetchResult)
        (r : PollResult),
        PollEvent.settled r ∈ pollAux pollInterval maxAttempts st rs →
        ∃ l, pollAux pollInterval maxAttempts st rs = l ++ [PollEvent.settled r] ∧
          ∀ x ∈ l, isSettled x = false)
    ∧ ∀ (pollInterval maxAttempts : Nat) (rs : List FetchResult),
        maxAttempts + 10 ≤ rs.length →
        ∃ r, PollEvent.settled r ∈ pollEvents pollInterval maxAttempts rs := by
  refine ⟨?_, ?_, ?_⟩
  · intro I M st rs
    rcases pollAux_shape I M rs st with hno | ⟨l, res, heq, hl⟩
    · rw [List.countP_eq_zero.mpr (by intro a ha; simp [hno a ha])]
      omega
    · rw [heq, List.countP_append,
        List.countP_eq_zero.mpr (by intro a ha; simp [hl a ha])]
      simp [List.countP_cons, isSettled, settledOf]
  · intro I M st rs r hmem
    rcases pollAux_shape I M rs st with hno | ⟨l, res, heq, hl⟩
    · have := hno _ hmem
      simp [isSettled, settledOf] at this
    · rw [heq] at hmem
      rcases List.mem_append.mp hmem with hin | hin
      · have := hl _ hin
        simp [isSettled, settledOf] at this
      · have : r = res := by
          simp at hin
          exact hin
        subst this
        exact ⟨l, heq, hl⟩
  · intro I M rs hlen
    refine pollAux_terminates I M rs ⟨0, 0⟩ (by decide) ?_
    simp only [pollFuel]
    split <;> omega

/-- C6 witness: a session over a single completed response settles with
its resolution as the final event and nothing after it, and a session
with `maxAttempts = 1` over 11 processing responses is guaranteed to
settle. -/
theorem poll_settles_exactly_once_witness :
    (pollAux 3000 600 ⟨0, 0⟩
        [FetchResult.ok { job_id := "j", status := Lifecycle.completed }]).countP isSettled ≤ 1 ∧
    (∃ l, pollAux 3000 600 ⟨0, 0⟩
        [FetchResult.ok { job_id := "j", status := Lifecycle.completed }] =
          l ++ [PollEvent.settled (.resolve { job_id := "j", status := Lifecycle.completed })] ∧
        ∀ x ∈ l, isSettled x = false) ∧
    ∃ r, PollEvent.settled r ∈ pollEvents 3000 1
        (List.replicate 11 (FetchResult.ok { job_id := "j", status := Lifecycle.processing })) :=
  ⟨poll_settles_exactly_once.1 3000 600 ⟨0, 0⟩
      [FetchResult.ok { job_id := "j", status := Lifecycle.completed }],
   poll_settles_exactly_once.2.1 3000 600 ⟨0, 0⟩
      [FetchResult.ok { job_id := "j", status := Lifecycle.completed }]
      (.resolve { job_id := "j", status := Lifecycle.completed }) (by decide),
   poll_settles_exactly_once.2.2 3000 1
      (List.replicate 11 (FetchResult.ok { job_id := "j", status := Lifecycle.processing }))
      (by decide)⟩

/-! ## C1 (amended): monotonicity on rank-advancing stage sequences -/

theorem shapeO_init : ShapeO none initialSteps :=
  ⟨_, _, _, _, rfl, rfl, rfl, rfl, rfl, rfl, rfl, rfl, rfl⟩

theorem priorStatusAt_pending (o : Option Nat) (b k : Nat)
    (hle : ∀ a, o = some a → a ≤ b) (hk : b < k) :
    priorStatusAt o k = StepStatus.pending := by
  cases o with
  | none => rfl
  | some a =>
    have ha := hle a rfl
    simp only [priorStatusAt, stepStatusAt]
    rw [if_neg (by omega), if_neg (by omega)]

theorem stepStatusAt_terminal (b j : Nat)
    (h : stepStatusAt b j = StepStatus.completed ∨ stepStatusAt b j = StepStatus.error) :
    j < b := by
  by_cases h1 : j < b
  · exact h1
  · exfalso
    unfold stepStatusAt at h
    rw [if_neg h1] at h
    by_cases h2 : j = b
    · rw [if_pos h2] at h
      rcases h with h | h <;> exact absurd h (by decide)
    · rw [if_neg h2] at h
      rcases h with h | h <;> exact absurd h (by decide)

theorem stepStatusAt_completed (b j : Nat) (h : j < b) :
    stepStatusAt b j = StepStatus.completed := by
  unfold stepStatusAt
  rw [if_pos h]

theorem shapeO_status (b : Nat) (st : List Step) (hs : ShapeO (some b) st) (j : Nat) (e : Step)
    (he : st[j]? = some e) : e.status = stepStatusAt b j := by
  obtain ⟨s0, s1, s2, s3, rfl, -, -, -, -, h0, h1, h2, h3⟩ := hs
  rcases j with _ | _ | _ | _ | j
  · simp at he
    rw [← he]
    exact h0
  · simp at he
    rw [← he]
    exact h1
  · simp at he
    rw [← he]
    exact h2
  · simp at he
    rw [← he]
    exact h3
  · simp at he

theorem shapeO_step (s : JobStatus) (o : Option Nat) (b : Nat) (st : List Step)
    (hr : stageRank s = some b) (hs : ShapeO o st)
    (hle : ∀ a, o = some a → a ≤ b) :
    ShapeO (some b) (handleProgress s st) := by
  obtain ⟨s0, s1, s2, s3, rfl, hid0, hid1, hid2, hid3, hst0, hst1, hst2, hst3⟩ := hs
  by_cases c1 : stageOf s = "queued"
  · have hb : 0 = b := by simpa [stageRank, c1] using hr
    subst hb
    unfold handleProgress
    rw [if_pos c1]
    simp only [updateStep, List.map_cons, List.map_nil]
    refine ⟨_, _, _, _, rfl, ?_, ?_, ?_, ?_, ?_, ?_, ?_, ?_⟩
    · simp [applyStep, hid0]
    · simp [applyStep, hid1]
    · simp [applyStep, hid2]
    · simp [applyStep, hid3]
    · simp [applyStep, hid0, priorStatusAt, stepStatusAt]
    · simp [applyStep, hid1, priorStatusAt, stepStatusAt]
      rw [hst1]
      exact priorStatusAt_pending o _ 1 hle (by omega)
    · simp [applyStep, hid2, priorStatusAt, stepStatusAt]
      rw [hst2]
      exact priorStatusAt_pending o _ 2 hle (by omega)
    · simp [applyStep, hid3, priorStatusAt, stepStatusAt]
      rw [hst3]
      exact priorStatusAt_pending o _ 3 hle (by omega)
  by_cases c2 : stageOf s = "fetching" ∨ strIncludes (stageOf s) "fetch" = true
  · have hb : 0 = b := by simpa [stageRank, c1, c2] using hr
    subst hb
    unfold handleProgress
    rw [if_neg c1, if_pos c2]
    simp only [updateStep, List.map_cons, List.map_nil]
    refine ⟨_, _, _, _, rfl, ?_, ?_, ?_, ?_, ?_, ?_, ?_, ?_⟩
    · simp [applyStep, hid0]
    · simp [applyStep, hid1]
    · simp [applyStep, hid2]
    · simp [applyStep, hid3]
    · simp [applyStep, hid0, priorStatusAt, stepStatusAt]
    · simp [applyStep, hid1, priorStatusAt, stepStatusAt]
      rw [hst1]
      exact priorStatusAt_pending o _ 1 hle (by omega)
    · simp [applyStep, hid2, priorStatusAt, stepStatusAt]
      rw [hst2]
      exact priorStatusAt_pending o _ 2 hle (by omega)
    · simp [applyStep, hid3, priorStatusAt, stepStatusAt]
      rw [hst3]
      exact priorStatusAt_pending o _ 3 hle (by omega)
  by_cases c3 : stageOf s = "extracting" ∨ strIncludes (stageOf s) "extract" = true
  · have hb : 1 = b := by simpa [stageRank, c1, c2, c3] using hr
    subst hb
    unfold handleProgress
    rw [if_neg c1, if_neg c2, if_pos c3]
    simp only [updateStep, List.map_cons, List.map_nil]
    refine ⟨_, _, _, _, rfl, ?_, ?_, ?_, ?_, ?_, ?_, ?_, ?_⟩
    · simp [applyStep, hid0]
    · simp [applyStep, hid1]
    · simp [applyStep, hid2]
    · simp [applyStep, hid3]
    · simp [applyStep, hid0, priorStatusAt, stepStatusAt]
    · simp [applyStep, hid1, priorStatusAt, stepStatusAt]
    · simp [applyStep, hid2, priorStatusAt, stepStatusAt]
      rw [hst2]
      exact priorStatusAt_pending o _ 2 hle (by omega)
    · simp [applyStep, hid3, priorStatusAt, stepStatusAt]
      rw [hst3]
      exact priorStatusAt_pending o _ 3 hle (by omega)
  by_cases c4 : stageOf s = "segmenting" ∨ strIncludes (stageOf s) "segment" = true
  · have hb : 2 = b := by simpa [stageRank, c1, c2, c3, c4] using hr
    subst hb
    unfold handleProgress
    rw [if_neg c1, if_neg c2, if_neg c3, if_pos c4]
    simp only [updateStep, List.map_cons, List.map_nil]
    refine ⟨_, _, _, _, rfl, ?_, ?_, ?_, ?_, ?_, ?_, ?_, ?_⟩
    · simp [applyStep, hid0]
    · simp [applyStep, hid1]
    · simp [applyStep, hid2]
    · simp [applyStep, hid3]
    · simp [applyStep, hid0, priorStatusAt, stepStatusAt]
    · simp [applyStep, hid1, priorStatusAt, stepStatusAt]
    · simp [applyStep, hid2, priorStatusAt, stepStatusAt]
    · simp [applyStep, hid3, priorStatusAt, stepStatusAt]
      rw [hst3]
      exact priorStatusAt_pending o _ 3 hle (by omega)
  by_cases c5 : stageOf s = "animating" ∨ strIncludes (stageOf s) "animat" = true
  · have hb : 3 = b := by simpa [stageRank, c1, c2, c3, c4, c5] using hr
    subst hb
    unfold handleProgress
    rw [if_neg c1, if_neg c2, if_neg c3, if_neg c4, if_pos c5]
    simp only [updateStep, List.map_cons, List.map_nil]
    refine ⟨_, _, _, _, rfl, ?_, ?_, ?_, ?_, ?_, ?_, ?_, ?_⟩
    · simp [applyStep, hid0]
    · simp [applyStep, hid1]
    · simp [applyStep, hid2]
    · simp [applyStep, hid3]
    · simp [applyStep, hid0, priorStatusAt, stepStatusAt]
    · simp [applyStep, hid1, priorStatusAt, stepStatusAt]
    · simp [applyStep, hid2, priorStatusAt, stepStatusAt]
    · simp [applyStep, hid3, priorStatusAt, stepStatusAt]
  · exfalso
    simp [stageRank, c1, c2, c3, c4, c5] at hr

theorem shapeO_fold (x y : List JobStatus) :
    ∀ (a : Nat) (st : List Step), ShapeO (some a) st → ranksFrom a (x ++ y) = true →
      ∃ b, a ≤ b ∧ ShapeO (some b) (applyFrom st x) ∧ ranksFrom b y = true := by
  induction x with
  | nil =>
    intro a st hs hr
    exact ⟨a, Nat.le_refl a, by simpa [applyFrom] using hs, by simpa using hr⟩
  | cons s x ih =>
    intro a st hs hr
    rw [List.cons_append] at hr
    cases hrank : stageRank s with
    | none =>
      simp only [ranksFrom, hrank] at hr
      exact absurd hr (by simp)
    | some c =>
      simp only [ranksFrom, hrank] at hr
      by_cases hac : a ≤ c
      · rw [if_pos hac] at hr
        have hs2 := shapeO_step s (some a) c st hrank hs (by intro a2 h; cases h; exact hac)
        obtain ⟨b, hcb, hsb, hrb⟩ := ih c (handleProgress s st) hs2 hr
        exact ⟨b, Nat.le_trans hac hcb, by simpa [applyFrom] using hsb, hrb⟩
      · rw [if_neg hac] at hr
        exact absurd hr (by simp)

/-- C1 (amended): on snapshot sequences whose stage tokens are all
recognized non-terminal stages with monotonically non-decreasing pipeline
ranks, a step that has reached `completed` or `error` after a prefix is
still at a terminal status after the whole sequence — whereas for
rank-regressing sequences the clamp fails, as the counterexample shows,
because `updateStep` assigns statuses unconditionally. -/
theorem mapper_monotone_on_advancing_stages
    (l1 l2 : List JobStatus) (j : Nat) (e1 e2 : Step)
    (hranks : ranksFrom 0 (l1 ++ l2) = true)
    (h1 : (applySnapshots l1)[j]? = some e1)
    (h2 : (applySnapshots (l1 ++ l2))[j]? = some e2)
    (hterm : e1.status = StepStatus.completed ∨ e1.status = StepStatus.error) :
    e2.status = StepStatus.completed ∨ e2.status = StepStatus.error := by
  cases l1 with
  | nil =>
    exfalso
    have h1i : initialSteps[j]? = some e1 := h1
    have hmem : e1 ∈ initialSteps := List.getElem?_mem h1i
    have hp : e1.status = StepStatus.pending := by
      simp [initialSteps] at hmem
      rcases hmem with rfl | rfl | rfl | rfl <;> rfl
    rcases hterm with h | h <;> rw [hp] at h <;> exact absurd h (by decide)
  | cons s0 l1t =>
    have happ : applySnapshots (s0 :: l1t) =
        applyFrom (handleProgress s0 initialSteps) l1t := by
      simp [applySnapshots, applyFrom]
    rw [List.cons_append] at hranks
    cases hrank0 : stageRank s0 with
    | none =>
      simp only [ranksFrom, hrank0] at hranks
      exact absurd hranks (by simp)
    | some c0 =>
      simp only [ranksFrom, hrank0] at hranks
      rw [if_pos (Nat.zero_le c0)] at hranks
      have hs0 : ShapeO (some c0) (handleProgress s0 initialSteps) :=
        shapeO_step s0 none c0 initialSteps hrank0 shapeO_init (fun a h => nomatch h)
      obtain ⟨b1, hb1, hshape1, hranks2⟩ :=
        shapeO_fold l1t l2 c0 (handleProgress s0 initialSteps) hs0 hranks
      rw [← happ] at hshape1
      have hst1 := shapeO_status b1 _ hshape1 j e1 h1
      have hjb1 : j < b1 := stepStatusAt_terminal b1 j (by rw [← hst1]; exact hterm)
      obtain ⟨b2, hb2, hshape2, -⟩ :=
        shapeO_fold l2 [] b1 (applySnapshots (s0 :: l1t)) hshape1 (by simpa using hranks2)
      have happ2 : applySnapshots ((s0 :: l1t) ++ l2) =
          applyFrom (applySnapshots (s0 :: l1t)) l2 := by
        simp [applySnapshots, applyFrom, List.foldl_append]
      rw [← happ2] at hshape2
      have hst2 := shapeO_status b2 _ hshape2 j e2 h2
      left
      rw [hst2]
      exact stepStatusAt_completed b2 j (by omega)

/-- C1 amended witness: after `fetching` then `extracting` the `fetch`
step is completed, and it is still completed after the further
rank-advancing snapshot `segmenting`. -/
theorem mapper_monotone_on_advancing_stages_witness :
    { id := "fetch", title := "Fetching Paper", description := "Paper downloaded",
      status := StepStatus.completed : Step }.status = StepStatus.completed ∨
    { id := "fetch", title := "Fetching Paper", description := "Paper downloaded",
      status := StepStatus.completed : Step }.status = StepStatus.error :=
  mapper_monotone_on_advancing_stages
    [ { job_id := "j", status := Lifecycle.processing, stage := some "fetching" },
      { job_id := "j", status := Lifecycle.processing, stage := some "extracting" } ]
    [ { job_id := "j", status := Lifecycle.processing, stage := some "segmenting" } ]
    0
    { id := "fetch", title := "Fetching Paper", description := "Paper downloaded",
      status := StepStatus.completed }
    { id := "fetch", title := "Fetching Paper", description := "Paper downloaded",
      status := StepStatus.completed }
    (by decide) (by decide) (by decide) (by decide)

end XeBot
